import Mathlib

/-!
# Verification of the TapLink Go client (taplink-go)

Shallow embedding of the core of the `taplink` package:

* per-host statistics store (`statistics`, `hostStatistics` — part_007 and
  `host_statistics.go`),
* host ranking (`hostFailRate`, `statistics.Hosts`),
* host selection (`Config.Host` — `config.go`),
* the retry/failover request loop (`Client.getFromAPI` — `client.go`),
* the salt-exchange protocol operations (`Client.VerifyPassword`,
  `Client.NewPassword` — `client.go`).

Modelling conventions:

* Go `time.Time` timestamps and `time.Duration` values are modelled as `Nat`
  (nanoseconds).  All latencies recorded by the client come from
  `time.Since` and are non-negative.
* Go `float64` arithmetic in `ErrorRate()` is modelled exactly over `ℚ`.
* Go `int64` values (version ids) are modelled as `Int`.
* Byte slices are modelled as `List Nat`; a nil slice that the code tests
  with `!= nil` is modelled as an `Option`.
* Go maps are modelled as association lists.  Where the code *iterates*
  over a map (`for h := range s.stats` in `statistics.Hosts`), the
  iteration order is unspecified in Go (and deliberately randomized by the
  runtime), so the enumeration is an explicit argument of the model.
-/

namespace Taplink

/-- `errorResp` of `host_statistics.go`: timestamp and status code of one
recorded error. -/
structure ErrorResp where
  ts : Nat
  code : Nat
  deriving DecidableEq, Repr

/-- `successResp` of `host_statistics.go`: timestamp and latency of one
recorded successful request. -/
structure SuccessResp where
  ts : Nat
  latency : Nat
  deriving DecidableEq, Repr

/-- `timeoutResp` of `host_statistics.go`: timestamp of one recorded
timeout. -/
structure TimeoutResp where
  ts : Nat
  deriving DecidableEq, Repr

/-- `hostStatistics` of `host_statistics.go`: the per-host event record
(the mutex only serializes access and has no functional content). -/
structure HostRecord where
  errors : List ErrorResp
  timeouts : List TimeoutResp
  latency : List SuccessResp
  host : String
  deriving DecidableEq, Repr

/-- `newHostStatistics` of `host_statistics.go`. -/
def newHostStatistics (host : String) : HostRecord :=
  { host := host, errors := [], latency := [], timeouts := [] }

/-- `Latency.Avg` of `host_statistics.go`: 0 on an empty slice, otherwise
the `time.Duration` (integer) division of the total by the length. -/
def latencyAvg (l : List Nat) : Nat :=
  if l.length = 0 then 0 else l.foldl (· + ·) 0 / l.length

/-- `hostStatistics.Latency()`: the list of recorded latencies. -/
def HostRecord.latencies (r : HostRecord) : List Nat :=
  r.latency.map (·.latency)

/-- `hostStatistics.Requests()`: `len(s.latency)`. -/
def HostRecord.requests (r : HostRecord) : Nat :=
  r.latency.length

/-- `hostStatistics.Timeouts()`: `len(s.timeouts)`. -/
def HostRecord.timeoutCount (r : HostRecord) : Nat :=
  r.timeouts.length

/-- `Errors.Len()` on the map built by `hostStatistics.Errors()`: the sum
of the per-code counts, i.e. the total number of recorded errors. -/
def HostRecord.errorsLen (r : HostRecord) : Nat :=
  r.errors.length

/-- `Errors.Count(code)` on the map built by `hostStatistics.Errors()`:
the number of recorded errors with the given status code. -/
def HostRecord.errorsCount (r : HostRecord) (code : Nat) : Nat :=
  (r.errors.filter (fun e => e.code = code)).length

/-- `hostStatistics.ErrorRate()`: `(timeouts + errors) / (latency +
timeouts + errors)` in `float64`, defined as 0 when there are no errors
and no timeouts; modelled exactly over `ℚ`. -/
def HostRecord.errorRate (r : HostRecord) : ℚ :=
  let errCt : Nat := r.timeouts.length + r.errors.length
  let totalCt : Nat := r.latency.length + r.timeouts.length + r.errors.length
  if errCt = 0 then 0 else (errCt : ℚ) / (totalCt : ℚ)

/-- `hostStatistics.Last(last)`: the freshly allocated record holding the
events with timestamp not before `now - last`.  The Go code negates a
positive `last` and keeps an event iff its timestamp is not `Before`
the cutoff `u = now.Add(-last)`; with `Nat` timestamps the cutoff is
`now - last` (truncated at 0, which keeps every event exactly as a
negative cutoff time would). -/
def HostRecord.lastWindow (r : HostRecord) (now window : Nat) : HostRecord :=
  let u := now - window
  { host := r.host
    latency := r.latency.filter (fun e => ¬ e.ts < u)
    errors := r.errors.filter (fun e => ¬ e.ts < u)
    timeouts := r.timeouts.filter (fun e => ¬ e.ts < u) }

/-- `statistics` of part_007: the enabled flag and the host map
(`map[string]*hostStatistics`), modelled as an association list. -/
structure StatisticsStore where
  enabled : Bool
  stats : List (String × HostRecord)
  deriving DecidableEq, Repr

/-- `newStatistics` of part_007: statistics start with an empty host map;
the `enabled` field is the Go zero value `false`. -/
def newStatistics : StatisticsStore :=
  { enabled := false, stats := [] }

/-- Lookup in the host map. -/
def lookupRec : List (String × HostRecord) → String → Option HostRecord
  | [], _ => none
  | p :: rest, host => if p.1 = host then some p.2 else lookupRec rest host

/-- Point update of the host map (Go map assignment / in-place mutation of
the record a map entry points to). -/
def updateRec : List (String × HostRecord) → String →
    (HostRecord → HostRecord) → List (String × HostRecord)
  | [], _, _ => []
  | p :: rest, host, f =>
    if p.1 = host then (p.1, f p.2) :: updateRec rest host f
    else p :: updateRec rest host f

/-- `statistics.init(host)`: create the entry for `host` if it is not in
the map yet. -/
def StatisticsStore.init (s : StatisticsStore) (host : String) :
    StatisticsStore :=
  match lookupRec s.stats host with
  | some _ => s
  | none => { s with stats := s.stats ++ [(host, newHostStatistics host)] }

/-- `statistics.AddSuccess(host, latency)`: a no-op when disabled,
otherwise init the host and append a `successResp` stamped `now`. -/
def StatisticsStore.addSuccess (s : StatisticsStore) (host : String)
    (latency now : Nat) : StatisticsStore :=
  if !s.enabled then s
  else
    let s' := s.init host
    { s' with
      stats := updateRec s'.stats host
        (fun r => { r with latency := r.latency ++ [⟨now, latency⟩] }) }

/-- `statistics.AddError(host, code)`: a no-op when disabled, otherwise
init the host and append an `errorResp` stamped `now`. -/
def StatisticsStore.addError (s : StatisticsStore) (host : String)
    (code now : Nat) : StatisticsStore :=
  if !s.enabled then s
  else
    let s' := s.init host
    { s' with
      stats := updateRec s'.stats host
        (fun r => { r with errors := r.errors ++ [⟨now, code⟩] }) }

/-- `statistics.AddTimeout(host)`: a no-op when disabled, otherwise init
the host and append a `timeoutResp` stamped `now`. -/
def StatisticsStore.addTimeout (s : StatisticsStore) (host : String)
    (now : Nat) : StatisticsStore :=
  if !s.enabled then s
  else
    let s' := s.init host
    { s' with
      stats := updateRec s'.stats host
        (fun r => { r with timeouts := r.timeouts ++ [⟨now⟩] }) }

/-- What a `HostStats` value handed to a caller is: `statistics.Get`
returns `s.stats[host]`, the live `*hostStatistics` pointer into the
store, while `hostStatistics.Last` allocates a fresh record (`var om
hostStatistics`) and returns a pointer to the copy. -/
inductive HostStatsRef where
  | live (host : String)
  | copy (rec : HostRecord)
  deriving DecidableEq, Repr

/-- Dereference a `HostStats` value against the current store state: a
live pointer reads the record the store holds now; a copy is
self-contained. -/
def derefRec (s : StatisticsStore) : HostStatsRef → HostRecord
  | .live h => (lookupRec s.stats h).getD (newHostStatistics h)
  | .copy r => r

/-- `statistics.Get(host)`: init the host, then return the live record
pointer.  The store is returned too because `init` mutates it. -/
def StatisticsStore.get (s : StatisticsStore) (host : String) :
    StatisticsStore × HostStatsRef :=
  (s.init host, .live host)

/-- `hostStatistics.Last` as seen through a `HostStats` value: read the
record (live or copy) at call time and return an independent copy of the
window-filtered events. -/
def HostStatsRef.last (s : StatisticsStore) (ref : HostStatsRef)
    (now window : Nat) : HostStatsRef :=
  .copy ((derefRec s ref).lastWindow now window)

/-- `Errors().Len()` observed through a `HostStats` value. -/
def refErrorsLen (s : StatisticsStore) (ref : HostStatsRef) : Nat :=
  (derefRec s ref).errorsLen

/-- `Errors().Count(code)` observed through a `HostStats` value. -/
def refErrorsCount (s : StatisticsStore) (ref : HostStatsRef) (code : Nat) :
    Nat :=
  (derefRec s ref).errorsCount code

/-- `Timeouts()` observed through a `HostStats` value. -/
def refTimeouts (s : StatisticsStore) (ref : HostStatsRef) : Nat :=
  (derefRec s ref).timeoutCount

/-- `Requests()` observed through a `HostStats` value. -/
def refRequests (s : StatisticsStore) (ref : HostStatsRef) : Nat :=
  (derefRec s ref).requests

/-- `Latency()` observed through a `HostStats` value. -/
def refLatency (s : StatisticsStore) (ref : HostStatsRef) : List Nat :=
  (derefRec s ref).latencies

/-- `ErrorRate()` observed through a `HostStats` value. -/
def refErrorRate (s : StatisticsStore) (ref : HostStatsRef) : ℚ :=
  (derefRec s ref).errorRate

/-! ## Host ranking (`hostFailRate`, `statistics.Hosts`) -/

/-- `time.Minute` in nanoseconds: the trailing window used by
`hostFailRate.Less`. -/
def timeMinute : Nat := 60000000000

/-- Modelled from the spec: `hostStatistics.CopyOf`, called by
`statistics.Hosts` and `hostFailRate.Swap`, is not among the provided
sources.  Per the spec, ranking operates on independent copies of a
host's event log with the same observable events; on immutable values a
copy is the value itself. -/
def HostRecord.CopyOf (r : HostRecord) : HostRecord := r

/-- `hostFailRate.Less(i, j)`: with `im = hfr[i].Last(time.Minute)` and
`jm = hfr[j].Last(time.Minute)`, the comparison the code performs is the
disjunction `im.ErrorRate() < jm.ErrorRate() || im.Latency().Avg() <
jm.Latency().Avg()` — note there is no equality guard on the error rates
before the latency comparison. -/
def lessFailRate (now : Nat) (a b : HostRecord) : Bool :=
  let im := a.lastWindow now timeMinute
  let jm := b.lastWindow now timeMinute
  decide (im.errorRate < jm.errorRate) ||
    decide (latencyAvg im.latencies < latencyAvg jm.latencies)

/-- One leftward bubbling pass of Go's `insertionSort` on the reversed
prefix: the element `x` at position `i` is swapped with its left
neighbour while `data.Less(j, j-1)` holds (`hostFailRate.Swap` swaps
`CopyOf` copies, which hold the same field values — see
`HostRecord.CopyOf` — so a swap is a plain exchange). -/
def insertRev (less : α → α → Bool) (x : α) : List α → List α
  | [] => [x]
  | p :: rest => if less x p then p :: insertRev less x rest else x :: p :: rest

/-- Go `sort.Sort` on a slice of fewer than 7 elements reduces to
`insertionSort(data, 0, n)` (the quicksort loop and the gap-6 Shell pass
of `sort.quickSort` do nothing at these lengths): scan `i = 1..n-1` and
bubble the element at `i` leftwards while it is `Less` than its left
neighbour. -/
def insertionSortGo (less : α → α → Bool) (l : List α) : List α :=
  (l.foldl (fun acc x => insertRev less x acc) []).reverse

/-- `statistics.Hosts()`: copy every record of the host map into a slice
— in the order `for h := range s.stats` happens to enumerate the map,
which Go leaves unspecified and randomizes, so the enumeration `l` is an
argument here — sort it with `hostFailRate`'s comparator, and return the
host names.  `now` stands for the `time.Now()` read by `Last`. -/
def statsHosts (now : Nat) (l : List HostRecord) : List String :=
  (insertionSortGo (lessFailRate now) (l.map HostRecord.CopyOf)).map (·.host)

/-! ## Host selection (`Config.Host` of `config.go`) -/

/-- `DefaultHost` of `config.go`. -/
def DefaultHost : String := "api.taplink.co"

/-- `Config.Host(attempts)`: with no configured servers return
`DefaultHost`; with exactly one return it; otherwise return
`servers[attempts % len(servers)]`. -/
def confHost (servers : List String) (attempts : Nat) : String :=
  if servers.length = 0 then DefaultHost
  else if servers.length = 1 then servers.getD 0 DefaultHost
  else servers.getD (attempts % servers.length) DefaultHost

/-! ## The retry/failover loop (`Client.getFromAPI` of `client.go`)

The transport (`HTTPClient.Do` plus the `ioutil.ReadAll` of the limited
body reader) is external; one attempt's interaction with it is summed up
by a `DoResult`, and a whole call is driven by an oracle `doReq : Nat →
DoResult` giving the outcome of each attempt.  The loop's observable
behaviour — the named return values `(respBody, err)`, the statistics
calls it makes, the number of `time.Sleep(RetryDelay)` calls, and the
number of attempts — is collected in a `GetOutcome`. -/

/-- Outcome of `HTTPClient.Do` and the body read on one attempt:
* `timeoutErr` — `Do` returned an error whose `Timeout()` is true;
* `noResp` — `Do` failed without a response (non-timeout);
* `readErr body` — a response arrived but reading its body failed, with
  `body` the partial bytes `ReadAll` returned;
* `ok status body latency` — the body was read in full (it may still be
  empty, which the loop treats like a read failure). -/
inductive DoResult where
  | timeoutErr
  | noResp
  | readErr (body : String)
  | ok (status : Nat) (body : String) (latency : Nat)
  deriving DecidableEq, Repr

/-- The Go `error` values `getFromAPI` can end up holding. -/
inductive GoErr where
  | netTimeout
  | netOther
  | unexpectedEOF
  | msg (s : String)
  deriving DecidableEq, Repr

/-- One statistics call made by the loop. -/
inductive StatEvent where
  | success (latency : Nat)
  | error (code : Nat)
  | timeout
  deriving DecidableEq, Repr

/-- The observable result of a `getFromAPI` call: the named returns
`respBody` (Go `nil` as `none`) and `err`, the statistics calls in
order, the number of sleeps, and the number of attempts made. -/
structure GetOutcome where
  respBody : Option String
  err : Option GoErr
  events : List (String × StatEvent)
  sleeps : Nat
  attempts : Nat
  deriving DecidableEq, Repr

/-- The body of the `for attempts < RetryLimit` loop of
`Client.getFromAPI`, with `fuel = RetryLimit - attempts` driving the
recursion.  `hostOf` models `c.Config().Host(attempts)` and `doReq` the
transport.  `respBody` and `err` are the loop-carried named returns;
`evs` and `slp` accumulate the statistics calls and sleeps. -/
def getFromAPIAux (hostOf : Nat → String) (doReq : Nat → DoResult) :
    Nat → Nat → Option String → Option GoErr →
    List (String × StatEvent) → Nat → GetOutcome
  | 0, attempts, respBody, err, evs, slp =>
    { respBody := respBody, err := err, events := evs, sleeps := slp,
      attempts := attempts }
  | fuel + 1, attempts, respBody, _err, evs, slp =>
    let slp' := if attempts > 0 then slp + 1 else slp
    let host := hostOf attempts
    match doReq attempts with
    | .timeoutErr =>
        getFromAPIAux hostOf doReq fuel (attempts + 1) respBody
          (some .netTimeout) (evs ++ [(host, .timeout)]) slp'
    | .noResp =>
        getFromAPIAux hostOf doReq fuel (attempts + 1) respBody
          (some .netOther) (evs ++ [(host, .error 999)]) slp'
    | .readErr body =>
        getFromAPIAux hostOf doReq fuel (attempts + 1) (some body)
          (some .unexpectedEOF) (evs ++ [(host, .error 999)]) slp'
    | .ok status body latency =>
        if body.length = 0 then
          getFromAPIAux hostOf doReq fuel (attempts + 1) (some body)
            (some .unexpectedEOF) (evs ++ [(host, .error 999)]) slp'
        else if 500 ≤ status then
          getFromAPIAux hostOf doReq fuel (attempts + 1) (some body)
            (some (.msg body.trim)) (evs ++ [(host, .error status)]) slp'
        else if 400 ≤ status then
          { respBody := none, err := some (.msg body.trim),
            events := evs ++ [(host, .error status)], sleeps := slp',
            attempts := attempts + 1 }
        else
          { respBody := some body, err := none,
            events := evs ++ [(host, .success latency)], sleeps := slp',
            attempts := attempts + 1 }

/-- `Client.getFromAPI`: run the loop from `attempts = 0` with nil named
returns; after the loop, `(respBody, err)` as last assigned are
returned.  `retryLimit` models the package variable `RetryLimit`
(default 3). -/
def getFromAPIGo (hostOf : Nat → String) (doReq : Nat → DoResult)
    (retryLimit : Nat) : GetOutcome :=
  getFromAPIAux hostOf doReq retryLimit 0 none none [] 0

/-- Default of the package variable `RetryLimit`. -/
def RetryLimit : Nat := 3

/-! ## The protocol client (`Client.VerifyPassword`, `Client.NewPassword`)

`Client.getSalt` builds the request path, performs `getFromAPI`, JSON-
decodes the body and hex-decodes the salts; its result is a `Salt` or an
error.  For the protocol operations only that result matters, so they are
parameterized by a salt oracle `getSaltF : List Nat → Int → Option Salt`
(hash and requested version id to the `Salt` of a successful exchange;
`none` is any failure).  Likewise `crypto/hmac` with `crypto/sha512` is a
Go standard-library primitive, so the operations are parameterized by the
function `hmacF key message` it computes. -/

/-- `Salt` of part_003: decoded salt bytes, the version it corresponds
to, and the rotation data.  `NewSalt` is a possibly-nil byte slice that
the code tests with `!= nil`, hence an `Option`. -/
structure Salt where
  salt : List Nat
  versionID : Int
  newVersionID : Int
  newSalt : Option (List Nat)
  deriving DecidableEq, Repr

/-- `VerifyPassword` (the result struct) of part_003. -/
structure VerifyPasswordRes where
  matched : Bool
  versionID : Int
  newVersionID : Int
  hash : List Nat
  newHash : Option (List Nat)
  deriving DecidableEq, Repr

/-- `NewPassword` (the result struct) of part_003. -/
structure NewPasswordRes where
  hash : List Nat
  versionID : Int
  deriving DecidableEq, Repr

/-- `Client.VerifyPassword(hash, expected, versionID)` of `client.go`:
get the salt; `Hash` is HMAC-SHA512 of `hash` keyed with `salt.Salt`;
`Matched` is `bytes.Equal(Hash, expected)`; when `Matched` holds and
`salt.VersionID != salt.NewVersionID` and `salt.NewSalt != nil`,
`NewHash` is HMAC-SHA512 of `hash` keyed with `salt.NewSalt`. -/
def clientVerifyPassword (hmacF : List Nat → List Nat → List Nat)
    (getSaltF : List Nat → Int → Option Salt)
    (hash expected : List Nat) (versionID : Int) :
    Option VerifyPasswordRes :=
  match getSaltF hash versionID with
  | none => none
  | some salt =>
    let h := hmacF salt.salt hash
    let matched := h == expected
    let vp : VerifyPasswordRes :=
      { hash := h, matched := matched, versionID := salt.versionID,
        newVersionID := salt.newVersionID, newHash := none }
    if matched && !(salt.versionID == salt.newVersionID)
        && !(salt.newSalt == none) then
      some { vp with newHash := salt.newSalt.map (fun ns => hmacF ns hash) }
    else
      some vp

/-- `Client.NewPassword(hash1)` of `client.go`: get the salt for version
0 ("use latest"), and return HMAC-SHA512 of `hash1` keyed with
`salt.Salt` together with `salt.VersionID`. -/
def clientNewPassword (hmacF : List Nat → List Nat → List Nat)
    (getSaltF : List Nat → Int → Option Salt)
    (hash1 : List Nat) : Option NewPasswordRes :=
  match getSaltF hash1 0 with
  | none => none
  | some salt => some { hash := hmacF salt.salt hash1, versionID := salt.versionID }

/-! ## Client construction (`New` of part_003) -/

/-- The `userAgent` package variable of `config.go`:
`fmt.Sprintf("TapLink/1.0 Go/%s", goVersion)`. -/
def userAgent (goVersion : String) : String :=
  "TapLink/1.0 Go/" ++ goVersion

/-- The fields of the `Config` struct of `config.go` that carry
functional state (the HTTP tuning durations and the embedded mutex are
omitted). -/
structure Config where
  appID : String
  headers : List (String × String)
  options : Option (List String)
  stats : StatisticsStore
  deriving DecidableEq, Repr

/-- `New(appID)` of part_003: a client over a `Config` holding the app
id, the `User-Agent`/`Accept` headers, no loaded options, and
`newStatistics()`. -/
def NewClient (goVersion appID : String) : Config :=
  { appID := appID
    headers := [("User-Agent", userAgent goVersion),
                ("Accept", "application/json")]
    options := none
    stats := newStatistics }

/-! ## Sequences of statistics calls

Used to state that a property of the store is preserved by arbitrarily
many `AddSuccess` / `AddError` / `AddTimeout` / `Get` calls. -/

/-- One call against the `Statistics` interface. -/
inductive StatOp where
  | success (h : String) (lat t : Nat)
  | error (h : String) (code t : Nat)
  | timeout (h : String) (t : Nat)
  | get (h : String)
  deriving DecidableEq, Repr

/-- Apply one statistics call to the store (for `Get`, keep the store it
leaves behind after its lazy `init`). -/
def applyStatOp (s : StatisticsStore) : StatOp → StatisticsStore
  | .success h lat t => s.addSuccess h lat t
  | .error h code t => s.addError h code t
  | .timeout h t => s.addTimeout h t
  | .get h => (s.get h).1

/-- Apply a sequence of statistics calls in order. -/
def applyStatOps (s : StatisticsStore) (ops : List StatOp) : StatisticsStore :=
  ops.foldl applyStatOp s

/-! ## Concrete host records used by the counterexamples -/

/-- A host with exactly one recorded error (a 503 one minute into the
run) and nothing else. -/
def fooErrRec : HostRecord :=
  { host := "foo.com", errors := [⟨timeMinute, 503⟩], timeouts := [],
    latency := [] }

/-- A host with exactly one recorded fast success (1ms latency, one
minute into the run) and no errors. -/
def barOkRec : HostRecord :=
  { host := "bar.com", errors := [], timeouts := [],
    latency := [⟨timeMinute, 1000000⟩] }

/-! ## Helper lemmas -/

theorem lookupRec_updateRec (stats : List (String × HostRecord))
    (h : String) (f : HostRecord → HostRecord) :
    lookupRec (updateRec stats h f) h = (lookupRec stats h).map f := by
  induction stats with
  | nil => rfl
  | cons p rest ih =>
    by_cases hp : p.1 = h
    · simp [updateRec, lookupRec, hp]
    · simp [updateRec, lookupRec, hp, ih]

theorem lookupRec_append_self (stats : List (String × HostRecord))
    (h : String) (r : HostRecord) (hnone : lookupRec stats h = none) :
    lookupRec (stats ++ [(h, r)]) h = some r := by
  induction stats with
  | nil => simp [lookupRec]
  | cons p rest ih =>
    by_cases hp : p.1 = h
    · simp [lookupRec, hp] at hnone
    · simp only [lookupRec, hp, if_false, List.cons_append, if_neg hp] at hnone ⊢
      exact ih hnone

theorem lookupRec_init (s : StatisticsStore) (h : String) :
    ∃ r, lookupRec (s.init h).stats h = some r := by
  unfold StatisticsStore.init
  cases hc : lookupRec s.stats h with
  | some r => simp only [hc]; exact ⟨r, rfl⟩
  | none => exact ⟨_, lookupRec_append_self _ _ _ hc⟩

theorem lookupRec_some_mem (stats : List (String × HostRecord))
    (h : String) (r : HostRecord) (hl : lookupRec stats h = some r) :
    ∃ p ∈ stats, p.1 = h ∧ p.2 = r := by
  induction stats with
  | nil => simp [lookupRec] at hl
  | cons p rest ih =>
    by_cases hp : p.1 = h
    · simp only [lookupRec, hp, if_pos] at hl
      exact ⟨p, List.mem_cons_self _ _, hp, by injection hl⟩
    · simp only [lookupRec, hp, if_false, if_neg hp] at hl
      obtain ⟨q, hq, hq1, hq2⟩ := ih hl
      exact ⟨q, List.mem_cons_of_mem _ hq, hq1, hq2⟩

/-- Unfolding of `Client.VerifyPassword` on a successful salt exchange. -/
theorem clientVerifyPassword_eq (hmacF : List Nat → List Nat → List Nat)
    (getSaltF : List Nat → Int → Option Salt)
    (hash expected : List Nat) (vid : Int) (salt : Salt)
    (hs : getSaltF hash vid = some salt) :
    clientVerifyPassword hmacF getSaltF hash expected vid =
      some { hash := hmacF salt.salt hash
             matched := hmacF salt.salt hash == expected
             versionID := salt.versionID
             newVersionID := salt.newVersionID
             newHash :=
               if (hmacF salt.salt hash == expected)
                   && !(salt.versionID == salt.newVersionID)
                   && !(salt.newSalt == none) then
                 salt.newSalt.map (fun ns => hmacF ns hash)
               else none } := by
  simp only [clientVerifyPassword, hs]
  split
  · next hcond => simp [hcond]
  · next hcond => simp [eq_false_of_ne_true hcond]

/-! ## Claims -/

/-- C1: round-trip of password creation and verification.  If both salt
exchanges succeed — `getSalt(h, 0)` during `NewPassword` and
`getSalt(h, NewPassword(h).VersionID)` during `VerifyPassword` — and the
server answers the second request with the same salt bytes it gave the
first (the same server responses), then
`VerifyPassword(h, NewPassword(h).Hash, NewPassword(h).VersionID)`
returns a result with `Matched == true`. -/
theorem verify_after_newPassword_matches
    (hmacF : List Nat → List Nat → List Nat)
    (getSaltF : List Nat → Int → Option Salt)
    (h : List Nat) (s0 s1 : Salt)
    (h0 : getSaltF h 0 = some s0)
    (h1 : getSaltF h s0.versionID = some s1)
    (hsalt : s1.salt = s0.salt) :
    ∃ np vp, clientNewPassword hmacF getSaltF h = some np ∧
      clientVerifyPassword hmacF getSaltF h np.hash np.versionID = some vp ∧
      vp.matched = true := by
  have hnp : clientNewPassword hmacF getSaltF h =
      some { hash := hmacF s0.salt h, versionID := s0.versionID } := by
    simp [clientNewPassword, h0]
  have hvp := clientVerifyPassword_eq hmacF getSaltF h (hmacF s0.salt h)
    s0.versionID s1 h1
  exact ⟨_, _, hnp, hvp, by simp [hsalt]⟩

/-- Witness for C1 at a concrete oracle: the server always answers with
salt bytes `[1, 2]` and version 7, and HMAC is instantiated with
concatenation. -/
theorem verify_after_newPassword_matches_witness :
    ∃ np vp,
      clientNewPassword (fun k m => k ++ m)
        (fun _ _ => some ⟨[1, 2], 7, 7, none⟩) [5] = some np ∧
      clientVerifyPassword (fun k m => k ++ m)
        (fun _ _ => some ⟨[1, 2], 7, 7, none⟩) [5] np.hash np.versionID =
        some vp ∧
      vp.matched = true :=
  verify_after_newPassword_matches (fun k m => k ++ m)
    (fun _ _ => some ⟨[1, 2], 7, 7, none⟩) [5]
    ⟨[1, 2], 7, 7, none⟩ ⟨[1, 2], 7, 7, none⟩ rfl rfl rfl

/-- C2 (functional part): whenever `getSalt` succeeds,
`VerifyPassword(hash1, expectedHash2, versionID)` returns a result whose
`Hash` is HMAC-SHA512 keyed with `salt.Salt` over `hash1`, whose
`Matched` is exactly whether that hash equals `expectedHash2` (the code
compares with `bytes.Equal`, which decides equality but is not a
constant-time comparison), and whose `NewHash` is HMAC-SHA512 keyed with
`salt.NewSalt` over `hash1` exactly when `Matched` holds,
`salt.NewVersionID` differs from `salt.VersionID`, and a new salt was
returned — and is absent otherwise. -/
theorem verifyPassword_postcondition
    (hmacF : List Nat → List Nat → List Nat)
    (getSaltF : List Nat → Int → Option Salt)
    (hash expected : List Nat) (vid : Int) (salt : Salt)
    (hs : getSaltF hash vid = some salt) :
    ∃ vp, clientVerifyPassword hmacF getSaltF hash expected vid = some vp ∧
      vp.hash = hmacF salt.salt hash ∧
      (vp.matched = true ↔ hmacF salt.salt hash = expected) ∧
      vp.versionID = salt.versionID ∧
      vp.newVersionID = salt.newVersionID ∧
      vp.newHash =
        (if vp.matched = true ∧ salt.newVersionID ≠ salt.versionID ∧
            salt.newSalt ≠ none then
          salt.newSalt.map (fun ns => hmacF ns hash)
        else none) := by
  refine ⟨_, clientVerifyPassword_eq hmacF getSaltF hash expected vid salt hs,
    rfl, by simp, rfl, rfl, ?_⟩
  by_cases hm : hmacF salt.salt hash == expected
  · by_cases hv : salt.versionID = salt.newVersionID
    · simp [hm, hv]
    · by_cases hn : salt.newSalt = none
      · simp [hm, hv, hn]
      · simp [hm, hv, hn, Ne.symm hv]
  · simp [hm, eq_false_of_ne_true hm]

/-- Witness for C2 at a concrete oracle with a pending rotation: salt
`[1]` for version 3, new salt `[9]` for version 4, HMAC instantiated
with concatenation, expected hash `[1, 5]`. -/
theorem verifyPassword_postcondition_witness :
    ∃ vp, clientVerifyPassword (fun k m => k ++ m)
        (fun _ _ => some ⟨[1], 3, 4, some [9]⟩) [5] [1, 5] 3 = some vp ∧
      vp.hash = [1, 5] ∧
      (vp.matched = true ↔ ([1, 5] : List Nat) = [1, 5]) ∧
      vp.versionID = 3 ∧
      vp.newVersionID = 4 ∧
      vp.newHash =
        (if vp.matched = true ∧ (4 : Int) ≠ 3 ∧
            (some [9] : Option (List Nat)) ≠ none then
          (some [9] : Option (List Nat)).map (fun ns => ns ++ [5])
        else none) :=
  verifyPassword_postcondition (fun k m => k ++ m)
    (fun _ _ => some ⟨[1], 3, 4, some [9]⟩) [5] [1, 5] 3
    ⟨[1], 3, 4, some [9]⟩ rfl

/-- C3: a 4xx response with a (non-empty) body on the first attempt
terminates `getFromAPI` after exactly one attempt: exactly one error
event carrying that status code is recorded, for the host selected for
attempt 0; the trimmed body is returned as the error; no retry is made
and no sleep occurs. -/
theorem getFromAPI_clientError_aborts
    (hostOf : Nat → String) (doReq : Nat → DoResult)
    (retryLimit status lat : Nat) (body : String)
    (hrl : 0 < retryLimit)
    (hdo : doReq 0 = .ok status body lat)
    (h4 : 400 ≤ status) (h5 : status < 500)
    (hb : body.length ≠ 0) :
    getFromAPIGo hostOf doReq retryLimit =
      { respBody := none, err := some (.msg body.trim),
        events := [(hostOf 0, .error status)], sleeps := 0,
        attempts := 1 } := by
  obtain ⟨f, rfl⟩ : ∃ f, retryLimit = f + 1 :=
    ⟨retryLimit - 1, by omega⟩
  simp only [getFromAPIGo, getFromAPIAux, hdo]
  rw [if_neg hb, if_neg (by omega), if_pos h4]
  simp

/-- Witness for C3: three allowed attempts, every attempt would answer
401 with body `" denied"`. -/
theorem getFromAPI_clientError_aborts_witness :
    getFromAPIGo (fun _ => "api.taplink.co")
        (fun _ => .ok 401 " denied" 5) 3 =
      { respBody := none, err := some (.msg " denied".trim),
        events := [("api.taplink.co", .error 401)], sleeps := 0,
        attempts := 1 } :=
  getFromAPI_clientError_aborts (fun _ => "api.taplink.co")
    (fun _ => .ok 401 " denied" 5) 3 401 5 " denied"
    (by omega) rfl (by omega) (by omega) (by decide)

/-- The retry loop under all-5xx responses, generalized over the loop
counters and accumulators: it consumes all its fuel, records one error
event with the response's status code per attempt, and ends holding the
last body and its trimmed text as the error. -/
theorem getFromAPIAux_allServerErr
    (hostOf : Nat → String) (doReq : Nat → DoResult)
    (status lat : Nat → Nat) (body : Nat → String) :
    ∀ fuel a rb er evs slp, 0 < fuel →
    (∀ i, a ≤ i → i < a + fuel → doReq i = .ok (status i) (body i) (lat i)) →
    (∀ i, a ≤ i → i < a + fuel → 500 ≤ status i) →
    (∀ i, a ≤ i → i < a + fuel → (body i).length ≠ 0) →
    getFromAPIAux hostOf doReq fuel a rb er evs slp =
      { respBody := some (body (a + fuel - 1))
        err := some (.msg (body (a + fuel - 1)).trim)
        events := evs ++
          (List.range' a fuel).map (fun i => (hostOf i, .error (status i)))
        sleeps := slp + (if a = 0 then fuel - 1 else fuel)
        attempts := a + fuel } := by
  intro fuel
  induction fuel with
  | zero => intro a rb er evs slp h0; omega
  | succ n ih =>
    intro a rb er evs slp _ hdo h5 hb
    have hda := hdo a le_rfl (by omega)
    have h5a := h5 a le_rfl (by omega)
    have hba := hb a le_rfl (by omega)
    simp only [getFromAPIAux, hda]
    rw [if_neg hba, if_pos h5a]
    cases n with
    | zero =>
      have hidx : a + (0 + 1) - 1 = a := by omega
      have hsl : (if a > 0 then slp + 1 else slp) =
          slp + (if a = 0 then 0 + 1 - 1 else 0 + 1) := by
        by_cases ha : a = 0
        · rw [if_neg (by omega : ¬ a > 0), if_pos ha]; omega
        · rw [if_pos (by omega : a > 0), if_neg ha]
      simp only [getFromAPIAux, hidx, hsl, List.range'_one, List.map_cons,
        List.map_nil, Nat.zero_add]
    | succ m =>
      rw [ih (a + 1) _ _ _ _ (by omega)
        (fun i hi1 hi2 => hdo i (by omega) (by omega))
        (fun i hi1 hi2 => h5 i (by omega) (by omega))
        (fun i hi1 hi2 => hb i (by omega) (by omega))]
      have hidx : a + 1 + (m + 1) - 1 = a + (m + 1 + 1) - 1 := by omega
      have hatt : a + 1 + (m + 1) = a + (m + 1 + 1) := by omega
      have hrange : (List.range' a (m + 1 + 1)).map
            (fun i => (hostOf i, StatEvent.error (status i))) =
          (hostOf a, StatEvent.error (status a)) ::
            (List.range' (a + 1) (m + 1)).map
              (fun i => (hostOf i, StatEvent.error (status i))) := by
        rw [List.range'_succ]
        simp
      have hsl : (if a > 0 then slp + 1 else slp) +
            (if a + 1 = 0 then m + 1 - 1 else m + 1) =
          slp + (if a = 0 then m + 1 + 1 - 1 else m + 1 + 1) := by
        rw [if_neg (by omega : ¬ (a + 1 = 0))]
        by_cases ha : a = 0
        · simp [ha]
        · rw [if_pos (by omega : a > 0), if_neg ha]
          omega
      rw [hidx, hatt, hrange, hsl]
      simp only [GetOutcome.mk.injEq, List.append_assoc,
        List.singleton_append]

/-- C4: if every attempt of a `getFromAPI` call answers with an HTTP 5xx
status and a (non-empty) body, the call makes exactly `RetryLimit`
attempts, records exactly `RetryLimit` error events — the event of
attempt `i` carrying that response's status code, against the host
selected for attempt `i` — and returns an error whose message is the
trimmed body of the last response. -/
theorem getFromAPI_serverErrors_exhaust
    (hostOf : Nat → String) (doReq : Nat → DoResult)
    (status lat : Nat → Nat) (body : Nat → String) (retryLimit : Nat)
    (hrl : 0 < retryLimit)
    (hdo : ∀ i, i < retryLimit → doReq i = .ok (status i) (body i) (lat i))
    (h5 : ∀ i, i < retryLimit → 500 ≤ status i ∧ status i < 600)
    (hb : ∀ i, i < retryLimit → (body i).length ≠ 0) :
    (getFromAPIGo hostOf doReq retryLimit).attempts = retryLimit ∧
    (getFromAPIGo hostOf doReq retryLimit).events =
      (List.range retryLimit).map
        (fun i => (hostOf i, .error (status i))) ∧
    (getFromAPIGo hostOf doReq retryLimit).err =
      some (.msg (body (retryLimit - 1)).trim) := by
  have := getFromAPIAux_allServerErr hostOf doReq status lat body
    retryLimit 0 none none [] 0 hrl
    (fun i _ hi2 => hdo i (by omega))
    (fun i _ hi2 => (h5 i (by omega)).1)
    (fun i _ hi2 => hb i (by omega))
  rw [getFromAPIGo, this]
  refine ⟨by simp, ?_, by simp⟩
  simp [List.range_eq_range']

/-- Witness for C4: three allowed attempts, every attempt answers 503
with body `"oops "`; the loop makes 3 attempts, records 3 error events
with code 503, and returns the trimmed message `"oops"`. -/
theorem getFromAPI_serverErrors_exhaust_witness :
    (getFromAPIGo (fun _ => "api.taplink.co")
        (fun _ => .ok 503 "oops " 5) 3).attempts = 3 ∧
    (getFromAPIGo (fun _ => "api.taplink.co")
        (fun _ => .ok 503 "oops " 5) 3).events =
      (List.range 3).map
        (fun _ => ("api.taplink.co", .error 503)) ∧
    (getFromAPIGo (fun _ => "api.taplink.co")
        (fun _ => .ok 503 "oops " 5) 3).err =
      some (.msg "oops ".trim) :=
  getFromAPI_serverErrors_exhaust (fun _ => "api.taplink.co")
    (fun _ => .ok 503 "oops " 5) (fun _ => 503) (fun _ => 5)
    (fun _ => "oops ") 3 (by omega)
    (fun _ _ => rfl) (fun _ _ => by norm_num)
    (fun _ _ => by show "oops ".length ≠ 0; decide)

/-- C5: the comparator behind the failover ranking is not the claimed
"ascending error rate, ties broken by ascending latency" order.  With
`foo.com` holding one 503 error (error rate 1, empty latency so average
latency 0) and `bar.com` holding one fast success (error rate 0, average
latency 1ms), `hostFailRate.Less` holds in *both* directions — its
latency disjunct has no equal-error-rate guard — and when the map
enumeration of `statistics.Hosts` happens to list `bar.com` first, the
sort returns `foo.com` (the host with the 503) *first*, not after the
error-free host. -/
theorem hostRanking_lessNotLexicographic :
    lessFailRate timeMinute fooErrRec barOkRec = true ∧
    lessFailRate timeMinute barOkRec fooErrRec = true ∧
    fooErrRec.errorRate = 1 ∧ barOkRec.errorRate = 0 ∧
    statsHosts timeMinute [barOkRec, fooErrRec] = ["foo.com", "bar.com"] := by
  refine ⟨?_, ?_, ?_, ?_, ?_⟩ <;>
    simp [lessFailRate, statsHosts, insertionSortGo, insertRev,
      HostRecord.lastWindow, HostRecord.errorRate, latencyAvg,
      HostRecord.latencies, HostRecord.CopyOf, fooErrRec, barOkRec, timeMinute]

/-- C6 counterexample: host selection does not follow the failover
ranking.  With servers `[foo.com, bar.com]` where `foo.com` has one
recorded 503 and `bar.com` one fast success, the ranking (enumerated in
server order) puts `bar.com` first, yet attempt 0 selects
`foo.com = servers[0 mod 2]`, not the ranking's head. -/
theorem confHost_not_ranked :
    statsHosts timeMinute [fooErrRec, barOkRec] = ["bar.com", "foo.com"] ∧
    confHost ["foo.com", "bar.com"] 0 = "foo.com" ∧
    confHost ["foo.com", "bar.com"] 0 ≠
      (statsHosts timeMinute [fooErrRec, barOkRec]).getD 0 "" := by
  have h1 : statsHosts timeMinute [fooErrRec, barOkRec] =
      ["bar.com", "foo.com"] := by
    simp [statsHosts, insertionSortGo, insertRev, lessFailRate,
      HostRecord.lastWindow, HostRecord.errorRate, latencyAvg,
      HostRecord.latencies, HostRecord.CopyOf, fooErrRec, barOkRec, timeMinute]
  refine ⟨h1, rfl, ?_⟩
  rw [h1]
  simp [confHost, DefaultHost]

/-- C6 (amended): `Config.Host(attempts)` selects from the *configured
server list*: `DefaultHost` when it is empty, and otherwise the server
at position `attempts mod len(servers)` — in particular the sole server
when exactly one is configured, for every attempt number. -/
theorem confHost_mod_servers (servers : List String) (attempts : Nat) :
    confHost servers attempts =
      (if servers.length = 0 then DefaultHost
       else servers.getD (attempts % servers.length) DefaultHost) := by
  unfold confHost
  by_cases h0 : servers.length = 0
  · simp [h0]
  · by_cases h1 : servers.length = 1
    · simp [h0, h1, Nat.mod_one]
    · simp [h0, h1]

/-- C7: `statistics.Hosts` is not a function of the statistics snapshot
alone.  The two enumerations of the same two-host snapshot — one record
for `foo.com` (one 503) and one for `bar.com` (one fast success), a
permutation of one another — produce different orderings, because the
Go map iteration order feeds straight into the (inconsistent) insertion
sort. -/
theorem statsHosts_not_deterministic :
    ([fooErrRec, barOkRec] : List HostRecord).Perm [barOkRec, fooErrRec] ∧
    statsHosts timeMinute [fooErrRec, barOkRec] ≠
      statsHosts timeMinute [barOkRec, fooErrRec] := by
  constructor
  · exact List.Perm.swap _ _ _
  · have h1 : statsHosts timeMinute [fooErrRec, barOkRec] =
        ["bar.com", "foo.com"] := by
      simp [statsHosts, insertionSortGo, insertRev, lessFailRate,
        HostRecord.lastWindow, HostRecord.errorRate, latencyAvg,
        HostRecord.latencies, HostRecord.CopyOf, fooErrRec, barOkRec, timeMinute]
    have h2 : statsHosts timeMinute [barOkRec, fooErrRec] =
        ["foo.com", "bar.com"] := by
      simp [statsHosts, insertionSortGo, insertRev, lessFailRate,
        HostRecord.lastWindow, HostRecord.errorRate, latencyAvg,
        HostRecord.latencies, HostRecord.CopyOf, fooErrRec, barOkRec, timeMinute]
    rw [h1, h2]
    simp

/-- C8 counterexample: the value `statistics.Get` returns is the live
`*hostStatistics` pointer, not an independent copy.  Against an enabled
empty store, take the snapshot `Get("h")` (observing 0 errors through
it), then call `AddError("h", 500)`: the error count observed through
the previously returned snapshot becomes 1. -/
theorem get_snapshot_aliases_store :
    refErrorsLen (StatisticsStore.get ⟨true, []⟩ "h").1
      (StatisticsStore.get ⟨true, []⟩ "h").2 = 0 ∧
    refErrorsLen
      ((StatisticsStore.get ⟨true, []⟩ "h").1.addError "h" 500 0)
      (StatisticsStore.get ⟨true, []⟩ "h").2 = 1 := by
  constructor
  · rfl
  · rfl

/-- C8 (amended): snapshots returned by `hostStatistics.Last` are
independent copies — the error, timeout and request counts observable
through them are unchanged by any later `AddError` / `AddTimeout` /
`AddSuccess` — whereas the value returned by `statistics.Get` aliases
the live host record, so a later `AddError` on that host increments the
error count observed through it. -/
theorem last_copies_get_aliases (s : StatisticsStore) (r : HostStatsRef)
    (stats : List (String × HostRecord)) (h h' : String)
    (code lat t now window : Nat) :
    (refErrorsLen (s.addError h' code t) (r.last s now window) =
      refErrorsLen s (r.last s now window)) ∧
    (refTimeouts (s.addTimeout h' t) (r.last s now window) =
      refTimeouts s (r.last s now window)) ∧
    (refRequests (s.addSuccess h' lat t) (r.last s now window) =
      refRequests s (r.last s now window)) ∧
    (refErrorsLen (StatisticsStore.addError ⟨true, stats⟩ h code t)
        (.live h) =
      refErrorsLen (StatisticsStore.init ⟨true, stats⟩ h) (.live h) + 1) := by
  refine ⟨rfl, rfl, rfl, ?_⟩
  obtain ⟨r0, hr0⟩ := lookupRec_init ⟨true, stats⟩ h
  simp [StatisticsStore.addError, refErrorsLen, derefRec,
    lookupRec_updateRec, hr0, HostRecord.errorsLen]

/-- C9: with statistics disabled, `AddSuccess`, `AddError` and
`AddTimeout` leave the store completely unchanged (they return before
even initializing the host), while `Get` still succeeds: for an unknown
host it lazily initializes an entry and the returned snapshot observes
the empty record. -/
theorem stats_disabled_addNoop_getLazy
    (stats : List (String × HostRecord)) (h : String) (code lat t : Nat) :
    StatisticsStore.addSuccess ⟨false, stats⟩ h lat t = ⟨false, stats⟩ ∧
    StatisticsStore.addError ⟨false, stats⟩ h code t = ⟨false, stats⟩ ∧
    StatisticsStore.addTimeout ⟨false, stats⟩ h t = ⟨false, stats⟩ ∧
    (lookupRec stats h = none →
      (StatisticsStore.get ⟨false, stats⟩ h).1 =
        ⟨false, stats ++ [(h, newHostStatistics h)]⟩ ∧
      derefRec (StatisticsStore.get ⟨false, stats⟩ h).1
        (StatisticsStore.get ⟨false, stats⟩ h).2 = newHostStatistics h) := by
  refine ⟨?_, ?_, ?_, fun hn => ⟨?_, ?_⟩⟩
  · simp [StatisticsStore.addSuccess]
  · simp [StatisticsStore.addError]
  · simp [StatisticsStore.addTimeout]
  · simp [StatisticsStore.get, StatisticsStore.init, hn]
  · simp only [StatisticsStore.get, StatisticsStore.init, hn, derefRec]
    rw [lookupRec_append_self _ _ _ hn]
    rfl

/-- Witness for C9 at the empty store and host `"h"` (unknown, so the
lazy-init implication fires). -/
theorem stats_disabled_addNoop_getLazy_witness :
    StatisticsStore.addSuccess ⟨false, []⟩ "h" 7 1 = ⟨false, []⟩ ∧
    StatisticsStore.addError ⟨false, []⟩ "h" 500 1 = ⟨false, []⟩ ∧
    StatisticsStore.addTimeout ⟨false, []⟩ "h" 1 = ⟨false, []⟩ ∧
    (StatisticsStore.get ⟨false, []⟩ "h").1 =
      ⟨false, [("h", newHostStatistics "h")]⟩ ∧
    derefRec (StatisticsStore.get ⟨false, []⟩ "h").1
      (StatisticsStore.get ⟨false, []⟩ "h").2 = newHostStatistics "h" :=
  ⟨(stats_disabled_addNoop_getLazy [] "h" 500 7 1).1,
   (stats_disabled_addNoop_getLazy [] "h" 500 7 1).2.1,
   (stats_disabled_addNoop_getLazy [] "h" 500 7 1).2.2.1,
   ((stats_disabled_addNoop_getLazy [] "h" 500 7 1).2.2.2 rfl).1,
   ((stats_disabled_addNoop_getLazy [] "h" 500 7 1).2.2.2 rfl).2⟩

theorem applyStatOp_disabled_empty (s : StatisticsStore) (op : StatOp)
    (hen : s.enabled = false)
    (hemp : ∀ p ∈ s.stats, p.2 = newHostStatistics p.1) :
    (applyStatOp s op).enabled = false ∧
    ∀ p ∈ (applyStatOp s op).stats, p.2 = newHostStatistics p.1 := by
  cases op with
  | success h lat t =>
    simp only [applyStatOp, StatisticsStore.addSuccess, hen]
    exact ⟨hen, hemp⟩
  | error h code t =>
    simp only [applyStatOp, StatisticsStore.addError, hen]
    exact ⟨hen, hemp⟩
  | timeout h t =>
    simp only [applyStatOp, StatisticsStore.addTimeout, hen]
    exact ⟨hen, hemp⟩
  | get h =>
    simp only [applyStatOp, StatisticsStore.get, StatisticsStore.init]
    cases hc : lookupRec s.stats h with
    | some r => exact ⟨hen, hemp⟩
    | none =>
      refine ⟨hen, fun p hp => ?_⟩
      rcases List.mem_append.mp hp with hmem | hmem
      · exact hemp p hmem
      · rcases List.mem_singleton.mp hmem with rfl
        rfl

theorem applyStatOps_disabled_empty (ops : List StatOp)
    (s : StatisticsStore) (hen : s.enabled = false)
    (hemp : ∀ p ∈ s.stats, p.2 = newHostStatistics p.1) :
    (applyStatOps s ops).enabled = false ∧
    ∀ p ∈ (applyStatOps s ops).stats, p.2 = newHostStatistics p.1 := by
  induction ops generalizing s with
  | nil => exact ⟨hen, hemp⟩
  | cons op rest ih =>
    have h1 := applyStatOp_disabled_empty s op hen hemp
    simpa [applyStatOps, List.foldl_cons] using
      ih (applyStatOp s op) h1.1 h1.2

theorem lookupRec_init_empty (s : StatisticsStore) (h : String)
    (hemp : ∀ p ∈ s.stats, p.2 = newHostStatistics p.1) :
    lookupRec (s.init h).stats h = some (newHostStatistics h) := by
  unfold StatisticsStore.init
  cases hc : lookupRec s.stats h with
  | some r =>
    obtain ⟨p, hp, hp1, hp2⟩ := lookupRec_some_mem _ _ _ hc
    simp only [hc]
    rw [← hp2, hemp p hp, hp1]
  | none => exact lookupRec_append_self _ _ _ hc

/-- C10: a client freshly created with `New(appID)` has statistics
collection disabled: after any sequence of `AddSuccess` / `AddError` /
`AddTimeout` / `Get` calls (no `Enable`), the store is still disabled,
each further `Add*` is a no-op, and the snapshot `Get(host)` returns
observes zero errors, zero timeouts and zero requests. -/
theorem newClient_stats_disabled (gv appID h : String)
    (ops : List StatOp) (code lat t : Nat) :
    (NewClient gv appID).stats.enabled = false ∧
    ((applyStatOps (NewClient gv appID).stats ops).addSuccess h lat t =
      applyStatOps (NewClient gv appID).stats ops) ∧
    ((applyStatOps (NewClient gv appID).stats ops).addError h code t =
      applyStatOps (NewClient gv appID).stats ops) ∧
    ((applyStatOps (NewClient gv appID).stats ops).addTimeout h t =
      applyStatOps (NewClient gv appID).stats ops) ∧
    refErrorsLen ((applyStatOps (NewClient gv appID).stats ops).get h).1
      ((applyStatOps (NewClient gv appID).stats ops).get h).2 = 0 ∧
    refTimeouts ((applyStatOps (NewClient gv appID).stats ops).get h).1
      ((applyStatOps (NewClient gv appID).stats ops).get h).2 = 0 ∧
    refRequests ((applyStatOps (NewClient gv appID).stats ops).get h).1
      ((applyStatOps (NewClient gv appID).stats ops).get h).2 = 0 := by
  have hinv := applyStatOps_disabled_empty ops (NewClient gv appID).stats
    rfl (by intro p hp; simp [NewClient, newStatistics] at hp)
  have hlook := lookupRec_init_empty (applyStatOps (NewClient gv appID).stats ops)
    h hinv.2
  refine ⟨rfl, ?_, ?_, ?_, ?_, ?_, ?_⟩
  · simp [StatisticsStore.addSuccess, hinv.1]
  · simp [StatisticsStore.addError, hinv.1]
  · simp [StatisticsStore.addTimeout, hinv.1]
  · simp [refErrorsLen, derefRec, StatisticsStore.get, hlook,
      HostRecord.errorsLen, newHostStatistics]
  · simp [refTimeouts, derefRec, StatisticsStore.get, hlook,
      HostRecord.timeoutCount, newHostStatistics]
  · simp [refRequests, derefRec, StatisticsStore.get, hlook,
      HostRecord.requests, newHostStatistics]

end Taplink
